import Mathlib

/-!
Shallow embedding of the prefab parsing, caching and entity-assembly core of
the bevy_lazy_prefabs repository.

Conventions of the embedding:
* Rust machine floats (f32) only ever flow from a literal token into a stored
  field in this code (no arithmetic is performed on them), so they are
  represented by `Rat`; the literals appearing in the claims (0.0, 3.0, 10.0)
  are exactly representable.
* Rust `Result` together with the possibility of a panic (`unwrap`, `todo!`)
  is modelled by the `Outcome` type below: `ok`, `err` (a returned error
  value) and `panic` (an unwind) are kept distinct, because several claims
  turn on the difference between returning an error and panicking.
* The pest grammar file (lazy_prefabs.pest) is not part of the sources, so
  the token tree that pest hands to the parsing functions is modelled by the
  inductive token-tree types below, one constructor per grammar rule that the
  parsing functions in parse.rs match on.  Numeric tokens are carried already
  converted (the grammar guarantees their shape); all structure that the
  parsing functions themselves inspect is kept.
-/

namespace LazyPrefabs

/-- Colors, as the closed set of named constants matched in `parse_value`
(parse.rs, `Rule::color` arm). -/
inductive ColorC where
  | RED
  | BLUE
  | GREEN
  | YELLOW
  | PINK
deriving DecidableEq, Repr

/-- The error enum `LoadPrefabError` of parse.rs.  Payloads that only carry
human-readable display text keep just the string the code formats. -/
inductive LoadPrefabError where
  | prefabFileReadError
  | unregisteredPrefabComponent (name : String)
  | pestParseError
  | unhandledValueRule (rule : String)
  | unhandledPrefabFieldRule (rule : String)
  | unhandledMaterialRule (rule : String)
  | missingMaterialField (name : String)
  | valueParseError (ty : String) (value : String)
deriving DecidableEq, Repr

/-- Result of running a fallible Rust computation: an `ok` value, a returned
`Err`, or a panic (`unwrap` on an error, `todo!`, stack exhaustion). -/
inductive Outcome (α : Type) where
  | ok (a : α)
  | err (e : LoadPrefabError)
  | panic (msg : String)
deriving DecidableEq, Repr

namespace Outcome

/-- Sequencing: models `?` on a `Result`, and the fact that a panic in a
callee unwinds through the caller. -/
def bind {α β : Type} : Outcome α → (α → Outcome β) → Outcome β
  | .ok a, f => f a
  | .err e, _ => .err e
  | .panic m, _ => .panic m

/-- Models Rust `.unwrap()` on a `Result`: an error value becomes a panic. -/
def unwrap {α : Type} : Outcome α → Outcome α
  | .ok a => .ok a
  | .err _ => .panic "called unwrap on an Err value"
  | .panic m => .panic m

def isOk {α : Type} : Outcome α → Bool
  | .ok _ => true
  | _ => false

def isErr {α : Type} : Outcome α → Bool
  | .err _ => true
  | _ => false

def isPanic {α : Type} : Outcome α → Bool
  | .panic _ => true
  | _ => false

end Outcome

/-- Association-list lookup; models `HashMap::get` for the string-keyed maps
of the registry and the named fields of dynamic structs. -/
def alookup {κ α : Type} [DecidableEq κ] : List (κ × α) → κ → Option α
  | [], _ => none
  | (k, v) :: rest, key => if k = key then some v else alookup rest key

/-- Association-list insert-or-replace; models `HashMap::insert` and the
replace-existing-else-append behaviour of `DynamicStruct::insert_boxed`. -/
def aset {κ α : Type} [DecidableEq κ] : List (κ × α) → κ → α → List (κ × α)
  | [], k, v => [(k, v)]
  | (k', v') :: rest, k, v =>
      if k' = k then (k', v) :: rest else (k', v') :: aset rest k v

/-- The dynamic value built by `parse_value` / `build_root` (a
`Box<dyn Reflect>` in the source): primitives, lists, ranges, the vec3 and
color literal forms, and the three composite shapes. -/
inductive DynValue where
  | int (n : Int)
  | float (x : Rat)
  | char (byte : Nat)
  | str (s : String)
  | list (xs : List DynValue)
  | range (start stop : Int)
  | vec3 (x y z : Rat)
  | color (c : ColorC)
  | dynStruct (fields : List (String × DynValue))
  | dynTupleStruct (fields : List DynValue)
  | dynTuple (fields : List DynValue)

/-- Token tree for a `value` rule, one constructor per arm matched by
`parse_value` in parse.rs.  `int` and `float` carry the already-converted
number (the grammar guarantees the token shape); `char` and `str` carry the
raw quoted token, whose quote stripping parse.rs performs itself; `range`
carries its two bounds (parse.rs re-splits the raw token on the dots, an
operation on the token text that cannot fail for tokens of the rule).  Any
rule not handled by `parse_value` is `unknownRule`. -/
inductive ValueSyn where
  | int (n : Int)
  | float (x : Rat)
  | char (raw : String)
  | str (raw : String)
  | array (xs : List ValueSyn)
  | range (start stop : Int)
  | vec3 (fields : List (String × ValueSyn))
  | color (inner : String)
  | unknownRule (rule : String)

/-- Models `cast_ref::<f32>()` from dynamic_cast.rs: downcast and unwrap
immediately, panicking on the wrong type. -/
def cast_ref_f32 : DynValue → Outcome Rat
  | .float x => .ok x
  | _ => .panic "called unwrap on a failed downcast"

mutual

/-- Function `parse_value` from parse.rs: convert one value token to a `DynValue`. -/
def parse_value : ValueSyn → Outcome DynValue
  | .int n => .ok (.int n)
  | .float x => .ok (.float x)
  | .char raw =>
      -- value_string.chars().nth(1), stored via `ch as u8`
      match raw.data.drop 1 with
      | c :: _ => .ok (.char (c.toNat % 256))
      | [] => .err (.valueParseError "char" raw)
  | .str raw =>
      -- strips the surrounding quote characters: str[1..len-1]
      .ok (.str (String.mk (raw.data.drop 1).dropLast))
  | .array xs =>
      (parse_value_list xs).bind fun vs => .ok (.list vs)
  | .range a b => .ok (.range a b)
  | .vec3 fields =>
      (parse_vec3_fields fields 0 0 0).bind fun v =>
        .ok (.vec3 v.1 v.2.1 v.2.2)
  | .color inner =>
      match inner with
      | "RED" => .ok (.color .RED)
      | "BLUE" => .ok (.color .BLUE)
      | "GREEN" => .ok (.color .GREEN)
      | "YELLOW" => .ok (.color .YELLOW)
      | "PINK" => .ok (.color .PINK)
      | _ => .err (.unhandledValueRule ("Color::" ++ inner))
  | .unknownRule r => .err (.unhandledValueRule r)

/-- The loop of the `Rule::array` arm: parse each element in order, stopping
at the first failure. -/
def parse_value_list : List ValueSyn → Outcome (List DynValue)
  | [] => .ok []
  | v :: vs =>
      (parse_value v).bind fun dv =>
        (parse_value_list vs).bind fun dvs => .ok (dv :: dvs)

/-- The loop of the `Rule::vec3` arm: starting from `Vec3::default()`, each
field is parsed (`parse_field(..).unwrap()`), downcast to f32, and assigned
if its name is x, y or z; any other name falls into the silent `_` arm. -/
def parse_vec3_fields : List (String × ValueSyn) → Rat → Rat → Rat →
    Outcome (Rat × Rat × Rat)
  | [], x, y, z => .ok (x, y, z)
  | (name, vs) :: rest, x, y, z =>
      (Outcome.unwrap (parse_value vs)).bind fun dv =>
        (cast_ref_f32 dv).bind fun val =>
          match name with
          | "x" => parse_vec3_fields rest val y z
          | "y" => parse_vec3_fields rest x val z
          | "z" => parse_vec3_fields rest x y val
          | _ => parse_vec3_fields rest x y z

end

/-- The `ReflectType` enum of parse.rs: the structural shape of a registered
type. -/
inductive ReflectType where
  | Struct
  | TupleStruct
  | Tuple
  | List
  | Map
  | Value
deriving DecidableEq, Repr

/-- Type `TypeInfo` from registry.rs: name and structural shape of a registered
type.  The `registration : TypeRegistration` field is host reflection data
(bevy) consumed only through the Component Capability modelled in the
assembly section below, so it is not carried here. -/
structure TypeInfo where
  type_name : String
  reflect_type : ReflectType
deriving DecidableEq, Repr

/-- Type `ReflectField` (a parsed field: name and dynamic value). -/
structure ReflectField where
  name : String
  value : DynValue

/-- Type `PrefabComponent`: a component build step, storing the target type name
and the dynamic root value built for it. -/
structure PrefabComponent where
  name : String
  root : DynValue

/-- Type `PrefabProcessorData`: key of the processor to run and its optional
properties struct. -/
structure PrefabProcessorData where
  key : String
  properties : Option (List (String × DynValue))

/-- Type `PrefabLoad`: a nested-prefab build step, storing only the path. -/
structure PrefabLoad where
  path : String

/-- The `PrefabCommand` enum of commands.rs (the build steps the assembler
executes).  The `Arc` wrappers around the payloads are immaterial to the
semantics and are dropped. -/
inductive PrefabCommand where
  | addComponent (comp : PrefabComponent)
  | processor (data : PrefabProcessorData)
  | loadPrefab (load : PrefabLoad)

/-- Modelled from the spec: the `Prefab` document type consumed by
`load_prefab` in commands.rs and cached by registry.rs is not among the
sources (the prefab.rs present is a different historical snapshot without
the `commands()` accessor those files call).  Per the spec a document is a
name and an ordered list of build steps. -/
structure Prefab where
  name : Option String
  commandsList : List PrefabCommand

/-- Modelled from the spec: the missing `Prefab::new(name, components,
bundles, material, processors)` constructor called at the end of
`parse_prefab`.  At that call site bundles and material are always `None`
(their parsing is commented out in parse.rs), and components and processors
arrive as two separate lists, so the step list the document can store is the
components in their order followed by the processors in theirs. -/
def Prefab.new (name : Option String) (components : List PrefabComponent)
    (_bundles : Option Unit) (_material : Option Unit)
    (processors : Option (List PrefabProcessorData)) : Prefab :=
  ⟨name, components.map PrefabCommand.addComponent
      ++ (processors.getD []).map PrefabCommand.processor⟩

/-- Modelled from the spec: the ordered `commands()` accessor of the missing
document type; assembly walks this list front to back. -/
def Prefab.commands (p : Prefab) : List PrefabCommand :=
  p.commandsList

/-- A cached `Arc<Prefab>`: the reference-counted pointer identity is made
observable as a numeric id allocated when the `Arc` is created. -/
structure ArcPrefab where
  id : Nat
  doc : Prefab

/-- Type `PrefabRegistry` from registry.rs: the registered-type table and the
path-keyed document cache.  Two instrumentation fields make the claims
observable: `fresh` is the id the next created `Arc` receives, and `reads`
logs each `fs::read_to_string` call in order.  The processor and loader
tables play no part in the claims and are omitted; parsing reads only
`type_info_map` and loading only `prefab_map`. -/
structure PrefabRegistry where
  type_info_map : List (String × TypeInfo)
  prefab_map : List (String × ArcPrefab)
  fresh : Nat
  reads : List String

/-- Lookup `type_info` from registry.rs. -/
def PrefabRegistry.type_info (reg : PrefabRegistry) (type_name : String) :
    Option TypeInfo :=
  alookup reg.type_info_map type_name

/-- Function `remove` from registry.rs: drop the cache entry for the name. -/
def PrefabRegistry.remove (reg : PrefabRegistry) (prefab_name : String) :
    PrefabRegistry :=
  { reg with prefab_map := reg.prefab_map.filter fun kv => kv.1 ≠ prefab_name }

/-- Lookup `get_prefab` from registry.rs. -/
def PrefabRegistry.get_prefab (reg : PrefabRegistry) (name : String) :
    Option ArcPrefab :=
  alookup reg.prefab_map name

/-- Function `build_root` from parse.rs: build the dynamic root object of a component
from its parsed fields according to the structural shape of the registered
type.  Struct inserts by name (`DynamicStruct::insert_boxed` replaces an
existing field of the same name, else appends); TupleStruct and Tuple insert
positionally; the List, Map and Value arms are `todo!()` in the source, which
panics.  The Rust signature returns the value directly; the `Outcome` here
carries that panic. -/
def build_root (type_info : TypeInfo) (fields : List ReflectField) :
    Outcome DynValue :=
  match type_info.reflect_type with
  | .Struct =>
      .ok (.dynStruct (fields.foldl (fun acc f => aset acc f.name f.value) []))
  | .TupleStruct => .ok (.dynTupleStruct (fields.map ReflectField.value))
  | .Tuple => .ok (.dynTuple (fields.map ReflectField.value))
  | .List => .panic "not yet implemented"
  | .Map => .panic "not yet implemented"
  | .Value => .panic "not yet implemented"

/-- Function `parse_field` from parse.rs: a field pair is its name plus the parsed
value. -/
def parse_field (name : String) (v : ValueSyn) : Outcome ReflectField :=
  (parse_value v).bind fun dv => .ok ⟨name, dv⟩

/-- Token tree inside a `component` rule: the inner pairs after the type
name, as matched by the loop of `parse_component` (a nested component, a
field, or any other rule, which hits the error arm). -/
inductive CompInner where
  | comp (name : String) (inners : List CompInner)
  | field (name : String) (value : ValueSyn)
  | unknownRule (rule : String)

/-- The tail of `parse_component` in parse.rs, after its field loop: look the
type name up in the registry (an unregistered name is the
`UnregisteredPrefabComponent` error), then build the root value. -/
def parse_component_tail (reg : PrefabRegistry) (type_name : String)
    (fields : List ReflectField) : Outcome PrefabComponent :=
  match reg.type_info type_name with
  | some info =>
      (build_root info fields).bind fun root => .ok ⟨type_name, root⟩
  | none => .err (.unregisteredPrefabComponent type_name)

/-- The field loop of `parse_component`.  A nested component is parsed with
`parse_component(field, registry).unwrap()` in the source — the body of that
recursive call (its field loop followed by `parse_component_tail`) is
written inline here so that the recursion is structural — so a failure of
the nested parse panics instead of propagating as an error; a plain field
uses `?`.  The `ReflectField::from` conversion turns the nested component
into a field named by its type, valued by its root. -/
def parse_comp_inners (reg : PrefabRegistry) :
    List CompInner → Outcome (List ReflectField)
  | [] => .ok []
  | .comp n is :: rest =>
      (Outcome.unwrap
          ((parse_comp_inners reg is).bind fun nfs =>
            parse_component_tail reg n nfs)).bind fun nested =>
        (parse_comp_inners reg rest).bind fun fs =>
          .ok (⟨nested.name, nested.root⟩ :: fs)
  | .field n v :: rest =>
      (parse_field n v).bind fun f =>
        (parse_comp_inners reg rest).bind fun fs => .ok (f :: fs)
  | .unknownRule r :: _ => .err (.unhandledPrefabFieldRule r)

/-- Function `parse_component` from parse.rs: parse the inner pairs into fields, then
resolve the type and build the root value. -/
def parse_component (reg : PrefabRegistry) (type_name : String)
    (inners : List CompInner) : Outcome PrefabComponent :=
  (parse_comp_inners reg inners).bind fun fields =>
    parse_component_tail reg type_name fields

/-- The field loop of `parse_processor`: the properties struct is created on
the first field (`get_or_insert`) and each field is inserted by name. -/
def parse_processor_fields : List (String × ValueSyn) →
    Option (List (String × DynValue)) →
    Outcome (Option (List (String × DynValue)))
  | [], props => .ok props
  | (n, v) :: rest, props =>
      (parse_field n v).bind fun f =>
        parse_processor_fields rest (some (aset (props.getD []) f.name f.value))

/-- Function `parse_processor` from parse.rs: the key, then the optional properties
struct assembled from the fields. -/
def parse_processor (key : String) (fields : List (String × ValueSyn)) :
    Outcome PrefabProcessorData :=
  (parse_processor_fields fields none).bind fun props => .ok ⟨key, props⟩

/-- Token tree inside the top-level `prefab` rule, as matched by the loop of
`parse_prefab`: the optional prefab name, components, processors, or any
other rule (the error arm). -/
inductive PrefabInner where
  | prefabName (s : String)
  | component (name : String) (inners : List CompInner)
  | processor (key : String) (fields : List (String × ValueSyn))
  | unknownRule (rule : String)

/-- The field loop of `parse_prefab`, with its accumulators: the optional
name, the component list, and the processor list (created on first use).
Note that components and processors are pushed onto two separate vectors. -/
def parse_prefab_inners (reg : PrefabRegistry) :
    List PrefabInner → Option String → List PrefabComponent →
    Option (List PrefabProcessorData) → Outcome Prefab
  | [], name, comps, procs => .ok (Prefab.new name comps none none procs)
  | .prefabName s :: rest, _, comps, procs =>
      parse_prefab_inners reg rest (some s) comps procs
  | .component n is :: rest, name, comps, procs =>
      (parse_component reg n is).bind fun c =>
        parse_prefab_inners reg rest name (comps ++ [c]) procs
  | .processor k fs :: rest, name, comps, procs =>
      (parse_processor k fs).bind fun p =>
        parse_prefab_inners reg rest name comps (some ((procs.getD []) ++ [p]))
  | .unknownRule r :: _, _, _, _ => .err (.unhandledPrefabFieldRule r)

/-- Function `parse_prefab` from parse.rs: walk the top-level pairs and construct the
document. -/
def parse_prefab (input : List PrefabInner) (reg : PrefabRegistry) :
    Outcome Prefab :=
  parse_prefab_inners reg input none [] none

/-- Function `try_load` from registry.rs: return the cached `Arc` if the name is
present; otherwise read the source text from disk, parse it, insert the new
`Arc` into the cache and return it.  `fs` stands for the file system
(`fs::read_to_string`) and `parse` for the missing `parse_prefab_string`
glue (pest plus `parse_prefab`); the registry state is returned alongside
the outcome since the Rust method mutates in place. -/
def PrefabRegistry.try_load (fs : String → Option String)
    (parse : String → Outcome Prefab) (reg : PrefabRegistry)
    (prefab_name : String) : Outcome ArcPrefab × PrefabRegistry :=
  match alookup reg.prefab_map prefab_name with
  | some arc => (.ok arc, reg)
  | none =>
      let reg1 := { reg with reads := reg.reads ++ [prefab_name] }
      match fs ("assets/prefabs/" ++ prefab_name) with
      | none => (.err .prefabFileReadError, reg1)
      | some text =>
          match parse text with
          | .ok prefab =>
              let arc : ArcPrefab := ⟨reg1.fresh, prefab⟩
              (.ok arc,
               { reg1 with
                  prefab_map := (prefab_name, arc) :: reg1.prefab_map,
                  fresh := reg1.fresh + 1 })
          | .err e => (.err e, reg1)
          | .panic m => (.panic m, reg1)

/-- Function `load` from registry.rs: `try_load` with the document discarded. -/
def PrefabRegistry.load (fs : String → Option String)
    (parse : String → Outcome Prefab) (reg : PrefabRegistry)
    (prefab_name : String) : Outcome Unit × PrefabRegistry :=
  match reg.try_load fs parse prefab_name with
  | (.ok _, reg') => (.ok (), reg')
  | (.err e, reg') => (.err e, reg')
  | (.panic m, reg') => (.panic m, reg')

/-- A concrete component instance attached to an entity, as its named fields.
Registered component types are identified by their registered name (names and
TypeIds are in one-one correspondence for registered types). -/
abbrev CompInstance := List (String × DynValue)

/-- Events recorded while assembling, making the execution order of build
steps observable: a component value being added or applied, or a processor
being invoked. -/
inductive AEvent where
  | applied (type_name : String) (root : DynValue)
  | ranProcessor (key : String)

/-- The host world, restricted to what the assembler touches: per-entity
component storage plus the event log of this embedding. -/
structure World where
  entities : List (Nat × List (String × CompInstance))
  log : List AEvent

/-- Component lookup on an entity. -/
def World.getComp (w : World) (entity : Nat) (ty : String) :
    Option CompInstance :=
  (alookup w.entities entity).bind fun comps => alookup comps ty

/-- Store a component instance on an entity (insert or replace). -/
def World.setComp (w : World) (entity : Nat) (ty : String)
    (inst : CompInstance) : World :=
  { w with
      entities :=
        aset w.entities entity
          (aset ((alookup w.entities entity).getD []) ty inst) }

/-- Check `world.entity(entity).contains_type_id(type_id)`: does the entity already
have a component of the given registered type. -/
def World.contains_type_id (w : World) (entity : Nat) (ty : String) : Bool :=
  (w.getComp entity ty).isSome

/-- Append an event to the instrumentation log of the world. -/
def World.logEvent (w : World) (ev : AEvent) : World :=
  { w with log := w.log ++ [ev] }

/-- Modelled from the spec: the per-type default instances behind the
Component Capability (section 6) — `add` constructs `T::default()` before
overlaying; the host reflection data holding those defaults is not among the
sources. -/
structure AssemblyEnv where
  defaults : List (String × CompInstance)

/-- Modelled from the spec: overlaying the specified fields of a dynamic
composite onto a concrete instance — each field mentioned in the value is
set, fields not mentioned stay untouched (section 6).  Only the named-field
composite participates in the claims; other roots overlay nothing. -/
def overlay (inst : CompInstance) (root : DynValue) : CompInstance :=
  match root with
  | .dynStruct fields => fields.foldl (fun acc nv => aset acc nv.1 nv.2) inst
  | _ => inst

namespace ReflectComponent

/-- Modelled from the spec: the `apply` Component Capability
(`comp.reflect().apply_component(world, entity, comp.root())`): overlay the
root onto the existing instance of the type.  The application is also
recorded in the event log. -/
def apply_component (w : World) (entity : Nat) (comp : PrefabComponent) :
    World :=
  let cur := (w.getComp entity comp.name).getD []
  (w.setComp entity comp.name (overlay cur comp.root)).logEvent
    (.applied comp.name comp.root)

/-- Modelled from the spec: the `add` Component Capability
(`comp.reflect().add_component(world, entity, comp.root())`): construct the
default instance of the type, overlay the root, attach it.  The application
is also recorded in the event log. -/
def add_component (env : AssemblyEnv) (w : World) (entity : Nat)
    (comp : PrefabComponent) : World :=
  let dflt := (alookup env.defaults comp.name).getD []
  (w.setComp entity comp.name (overlay dflt comp.root)).logEvent
    (.applied comp.name comp.root)

end ReflectComponent

/-- Function `add_component` from commands.rs (also inlined in the AddComponent arm of
`process_command`): apply if the entity already has the type, else add. -/
def add_component (env : AssemblyEnv) (comp : PrefabComponent) (entity : Nat)
    (w : World) : World :=
  if w.contains_type_id entity comp.name then
    ReflectComponent.apply_component w entity comp
  else
    ReflectComponent.add_component env w entity comp

/-- Function `run_processor` from commands.rs:
`data.processor().process_prefab(data.properties(), world, entity)`.  The
processor body is host-specific extension code (spec section 4.5); its
invocation is recorded in the event log. -/
def run_processor (data : PrefabProcessorData) (_entity : Nat) (w : World) :
    World :=
  w.logEvent (.ranProcessor data.key)

mutual

/-- Function `load_prefab` from commands.rs: run every command of the document, in
order, against the entity.  `fuel` bounds the nested-prefab recursion depth
(the source has no cycle protection; exhausted fuel models the stack
overflow such a cycle produces). -/
def load_prefab (fuel : Nat) (env : AssemblyEnv) (fs : String → Option String)
    (parse : String → Outcome Prefab) (prefab : Prefab)
    (reg : PrefabRegistry) (world : World) (entity : Nat) :
    Outcome (PrefabRegistry × World) :=
  process_commands fuel env fs parse prefab.commands reg world entity
termination_by (fuel, 1, 0)

/-- The command loop of `load_prefab`. -/
def process_commands (fuel : Nat) (env : AssemblyEnv)
    (fs : String → Option String) (parse : String → Outcome Prefab)
    (cmds : List PrefabCommand) (reg : PrefabRegistry) (world : World)
    (entity : Nat) : Outcome (PrefabRegistry × World) :=
  match cmds with
  | [] => .ok (reg, world)
  | cmd :: rest =>
      (process_command fuel env fs parse cmd reg world entity).bind fun rw =>
        process_commands fuel env fs parse rest rw.1 rw.2 entity
termination_by (fuel, 0, cmds.length + 1)

/-- Function `process_command` from commands.rs: AddComponent dispatches on
presence (apply vs add); Processor invokes the processor; LoadPrefab calls
`registry.load(path).unwrap()` (a load failure therefore panics instead of
being returned), fetches the cached document and recursively assembles it
onto the same entity. -/
def process_command (fuel : Nat) (env : AssemblyEnv)
    (fs : String → Option String) (parse : String → Outcome Prefab)
    (cmd : PrefabCommand) (reg : PrefabRegistry) (world : World)
    (entity : Nat) : Outcome (PrefabRegistry × World) :=
  match cmd with
  | .addComponent comp => .ok (reg, add_component env comp entity world)
  | .processor data => .ok (reg, run_processor data entity world)
  | .loadPrefab load =>
      match PrefabRegistry.load fs parse reg load.path with
      | (.err _, _) => .panic "called unwrap on an Err value"
      | (.panic m, _) => .panic m
      | (.ok _, reg1) =>
          match reg1.get_prefab load.path with
          | none => .panic "called unwrap on a None value"
          | some arc =>
              match fuel with
              | 0 => .panic "prefab recursion exhausted the stack"
              | n + 1 => load_prefab n env fs parse arc.doc reg1 world entity
termination_by (fuel, 0, 0)

end

section BasicLemmas

variable {κ α : Type} [DecidableEq κ]

theorem alookup_aset_self (m : List (κ × α)) (k : κ) (v : α) :
    alookup (aset m k v) k = some v := by
  induction m with
  | nil => simp [aset, alookup]
  | cons kv rest ih =>
      obtain ⟨k', v'⟩ := kv
      by_cases h : k' = k <;> simp [aset, alookup, h, ih]

theorem alookup_append_none {m1 : List (κ × α)} {k : κ}
    (m2 : List (κ × α)) (h : alookup m1 k = none) :
    alookup (m1 ++ m2) k = alookup m2 k := by
  induction m1 with
  | nil => simp
  | cons kv rest ih =>
      obtain ⟨k', v'⟩ := kv
      by_cases hk : k' = k
      · simp [alookup, hk] at h
      · simp [alookup, hk] at h ⊢
        exact ih h

theorem aset_eq_append {m : List (κ × α)} {k : κ}
    (v : α) (h : alookup m k = none) : aset m k v = m ++ [(k, v)] := by
  induction m with
  | nil => simp [aset]
  | cons kv rest ih =>
      obtain ⟨k', v'⟩ := kv
      by_cases hk : k' = k
      · simp [alookup, hk] at h
      · simp [alookup, hk] at h
        simp [aset, hk, ih h]

theorem alookup_filter_ne (m : List (κ × α)) (k : κ) :
    alookup (m.filter fun kv => kv.1 ≠ k) k = none := by
  induction m with
  | nil => simp [alookup]
  | cons kv rest ih =>
      obtain ⟨k', v'⟩ := kv
      simp only [ne_eq, decide_not] at ih ⊢
      by_cases hk : k' = k <;> simp [List.filter_cons, alookup, hk, ih]

end BasicLemmas

theorem getComp_setComp_self (w : World) (e : Nat) (ty : String)
    (inst : CompInstance) : (w.setComp e ty inst).getComp e ty = some inst := by
  simp [World.setComp, World.getComp, alookup_aset_self]

theorem contains_logEvent (w : World) (ev : AEvent) (e : Nat) (ty : String) :
    (w.logEvent ev).contains_type_id e ty = w.contains_type_id e ty := rfl

theorem contains_setComp_self (w : World) (e : Nat) (ty : String)
    (inst : CompInstance) : (w.setComp e ty inst).contains_type_id e ty = true := by
  simp [World.contains_type_id, getComp_setComp_self]

theorem contains_after_add_component (env : AssemblyEnv) (c : PrefabComponent)
    (e : Nat) (w : World) :
    (add_component env c e w).contains_type_id e c.name = true := by
  unfold add_component
  by_cases h : w.contains_type_id e c.name <;>
    simp [h, ReflectComponent.apply_component, ReflectComponent.add_component,
      contains_logEvent, contains_setComp_self]

theorem logEvent_log (w : World) (ev : AEvent) :
    (w.logEvent ev).log = w.log ++ [ev] := rfl

theorem setComp_log (w : World) (e : Nat) (ty : String) (inst : CompInstance) :
    (w.setComp e ty inst).log = w.log := rfl

theorem add_component_log (env : AssemblyEnv) (c : PrefabComponent) (e : Nat)
    (w : World) :
    (add_component env c e w).log = w.log ++ [.applied c.name c.root] := by
  unfold add_component
  by_cases h : w.contains_type_id e c.name <;>
    simp [h, ReflectComponent.apply_component, ReflectComponent.add_component,
      logEvent_log, setComp_log]

/-- Registry used by several concrete scenarios: the struct types A and B are
registered, nothing else; the document cache is empty. -/
def regAB : PrefabRegistry :=
  ⟨[("A", ⟨"A", .Struct⟩), ("B", ⟨"B", .Struct⟩)], [], 0, []⟩

/-- Registry with only the struct type Outer registered. -/
def regOuter : PrefabRegistry := ⟨[("Outer", ⟨"Outer", .Struct⟩)], [], 0, []⟩

/-- C3: the parsed document does not retain the position of a processor step
among the component steps.  The sources `Thing { A, processor!(P), B }` and
`Thing { A, B, processor!(P) }` differ in step order, yet `parse_prefab`
yields the very same document for both, because its loop pushes components
and processors onto two separate vectors; in the resulting document the
processor sits after both components even though it was authored between
them.  This refutes exact source-order storage of steps across kinds. -/
theorem C3_parse_prefab_forgets_processor_position :
    parse_prefab [.prefabName "Thing", .component "A" [], .processor "P" [],
        .component "B" []] regAB
      = parse_prefab [.prefabName "Thing", .component "A" [],
          .component "B" [], .processor "P" []] regAB
    ∧ parse_prefab [.prefabName "Thing", .component "A" [], .processor "P" [],
        .component "B" []] regAB
      = .ok ⟨some "Thing",
          [.addComponent ⟨"A", .dynStruct []⟩, .addComponent ⟨"B", .dynStruct []⟩,
           .processor ⟨"P", none⟩]⟩ := by
  constructor <;>
    simp [parse_prefab, parse_prefab_inners, parse_component, parse_comp_inners,
      parse_component_tail, PrefabRegistry.type_info, alookup, regAB, build_root,
      parse_processor, parse_processor_fields, Outcome.bind, Prefab.new]

/-- C5: a top-level reference to the unregistered type name Inner makes the
parse return the `UnregisteredPrefabComponent` error and no document; but
when the same unregistered name occurs nested inside the registered
component Outer, the `.unwrap()` in the nested-component arm of
`parse_component` turns that error into a panic instead of returning it. -/
theorem C5_unregistered_component_error_vs_panic :
    parse_prefab [.component "Inner" []] regOuter
      = .err (.unregisteredPrefabComponent "Inner")
    ∧ parse_prefab [.component "Outer" [.comp "Inner" []]] regOuter
      = .panic "called unwrap on an Err value"
    ∧ Outcome.isErr
        (parse_prefab [.component "Outer" [.comp "Inner" []]] regOuter)
      = false := by
  refine ⟨?_, ?_, ?_⟩ <;>
    simp [parse_prefab, parse_prefab_inners, parse_component, parse_comp_inners,
      parse_component_tail, PrefabRegistry.type_info, alookup, regOuter,
      build_root, Outcome.bind, Outcome.unwrap, Outcome.isErr]

/-- C7 counterexample: for a type registered with the List shape, building
the root from fields does not produce an error result as claimed — the
`todo!()` arm panics, so no error value is returned either. -/
theorem C7_list_shape_panics_not_error :
    build_root ⟨"Foo", .List⟩ [] = .panic "not yet implemented"
    ∧ Outcome.isErr (build_root ⟨"Foo", .List⟩ []) = false := by
  exact ⟨rfl, rfl⟩

theorem foldl_aset_of_nodup (fields : List ReflectField)
    (acc : List (String × DynValue))
    (hnd : (fields.map ReflectField.name).Nodup)
    (hacc : ∀ f ∈ fields, alookup acc f.name = none) :
    fields.foldl (fun a f => aset a f.name f.value) acc
      = acc ++ fields.map fun f => (f.name, f.value) := by
  induction fields generalizing acc with
  | nil => simp
  | cons f rest ih =>
      have h1 : alookup acc f.name = none := hacc f (by simp)
      have hnd' := hnd
      simp only [List.map_cons, List.nodup_cons] at hnd'
      rw [List.foldl_cons, aset_eq_append f.value h1,
        ih (acc ++ [(f.name, f.value)]) hnd'.2]
      · simp
      · intro g hg
        have hg1 : alookup acc g.name = none := hacc g (by simp [hg])
        rw [alookup_append_none _ hg1]
        have : f.name ≠ g.name := by
          intro hEq
          exact hnd'.1 (hEq ▸ (List.mem_map_of_mem ReflectField.name hg))
        simp [alookup, this]

/-- C7 as amended: the List, Map and Value shapes make `build_root` panic via
`todo!()` (no value is built, and no error value is returned), while the
Struct shape inserts the fields by name (in order, when the names are
distinct) and the TupleStruct and Tuple shapes insert the field values
positionally, ignoring the names. -/
theorem C7_build_root_by_shape (info : TypeInfo) (fields : List ReflectField) :
    ((info.reflect_type = .List ∨ info.reflect_type = .Map
        ∨ info.reflect_type = .Value) →
      build_root info fields = .panic "not yet implemented")
    ∧ (info.reflect_type = .TupleStruct →
      build_root info fields = .ok (.dynTupleStruct (fields.map ReflectField.value)))
    ∧ (info.reflect_type = .Tuple →
      build_root info fields = .ok (.dynTuple (fields.map ReflectField.value)))
    ∧ (info.reflect_type = .Struct → (fields.map ReflectField.name).Nodup →
      build_root info fields
        = .ok (.dynStruct (fields.map fun f => (f.name, f.value)))) := by
  refine ⟨?_, ?_, ?_, ?_⟩
  · rintro (h | h | h) <;> simp [build_root, h]
  · intro h; simp [build_root, h]
  · intro h; simp [build_root, h]
  · intro h hnd
    simp [build_root, h, foldl_aset_of_nodup fields [] hnd (by simp [alookup])]

/-- Witness for `C7_build_root_by_shape` at concrete inputs: a Struct-shaped
type with two distinct fields builds the named composite, and a List-shaped
type panics. -/
theorem C7_build_root_by_shape_witness :
    build_root ⟨"T", .Struct⟩ [⟨"x", .int 1⟩, ⟨"y", .int 2⟩]
      = .ok (.dynStruct [("x", .int 1), ("y", .int 2)])
    ∧ build_root ⟨"L", .List⟩ [⟨"x", .int 1⟩] = .panic "not yet implemented" :=
  ⟨(C7_build_root_by_shape ⟨"T", .Struct⟩ [⟨"x", .int 1⟩, ⟨"y", .int 2⟩]).2.2.2
      rfl (by simp),
   (C7_build_root_by_shape ⟨"L", .List⟩ [⟨"x", .int 1⟩]).1 (Or.inl rfl)⟩

/-- The fixed table of named color constants, as the spec states it. -/
def color_table : List (String × ColorC) :=
  [("RED", .RED), ("BLUE", .BLUE), ("GREEN", .GREEN), ("YELLOW", .YELLOW),
   ("PINK", .PINK)]

/-- C9: a color literal is resolved against the fixed closed table; a name in
the table yields the corresponding color value and any other name is the
`UnhandledValueRule` parse error, never a silent default. -/
theorem C9_color_literal_closed_table (inner : String) :
    parse_value (.color inner)
      = match alookup color_table inner with
        | some c => .ok (.color c)
        | none => .err (.unhandledValueRule ("Color::" ++ inner)) := by
  simp only [parse_value]
  split <;> simp_all [color_table, alookup, eq_comm]

/-- Witness for `C9_color_literal_closed_table`: the table hit RED and the
table miss PURPLE. -/
theorem C9_color_literal_closed_table_witness :
    parse_value (.color "RED") = .ok (.color .RED)
    ∧ parse_value (.color "PURPLE")
      = .err (.unhandledValueRule "Color::PURPLE") := by
  constructor
  · have h := C9_color_literal_closed_table "RED"
    simpa [color_table, alookup] using h
  · have h := C9_color_literal_closed_table "PURPLE"
    simpa [color_table, alookup] using h

/-- The vec3 literal semantics as the spec states them: start from the
default vector (all components zero) and assign the fields named x, y and z
in order, each taken as an f32, ignoring fields with any other name. -/
def vec3_assign_spec : List (String × Rat) → Rat × Rat × Rat → Rat × Rat × Rat
  | [], v => v
  | (n, q) :: rest, (x, y, z) =>
      vec3_assign_spec rest
        (if n = "x" then q else x, if n = "y" then q else y,
         if n = "z" then q else z)

theorem parse_vec3_fields_float (fields : List (String × Rat))
    (x y z : Rat) :
    parse_vec3_fields (fields.map fun p => (p.1, ValueSyn.float p.2)) x y z
      = .ok (vec3_assign_spec fields (x, y, z)) := by
  induction fields generalizing x y z with
  | nil => simp [parse_vec3_fields, vec3_assign_spec]
  | cons f rest ih =>
      obtain ⟨n, q⟩ := f
      simp only [List.map_cons, parse_vec3_fields, parse_value, Outcome.unwrap,
        Outcome.bind, cast_ref_f32, vec3_assign_spec]
      split <;> simp_all [ih]

/-- C8: parsing a vec3 literal whose field values are float tokens never
fails — it starts from the default vector, assigns only the fields named x,
y or z, and silently ignores any other field name; in particular the literal
`Vec3 { z: 3.0, x: 10.0 }` gives x=10, y=0, z=3, and a field with the
unknown name w is ignored without an error. -/
theorem C8_vec3_literal_semantics :
    (∀ fields : List (String × Rat),
      parse_value (.vec3 (fields.map fun p => (p.1, ValueSyn.float p.2)))
        = .ok (.vec3 (vec3_assign_spec fields (0, 0, 0)).1
            (vec3_assign_spec fields (0, 0, 0)).2.1
            (vec3_assign_spec fields (0, 0, 0)).2.2))
    ∧ parse_value (.vec3 [("z", .float 3), ("x", .float 10)])
        = .ok (.vec3 10 0 3)
    ∧ parse_value (.vec3 [("w", .float 7)]) = .ok (.vec3 0 0 0) := by
  refine ⟨?_, ?_, ?_⟩
  · intro fields
    simp [parse_value, parse_vec3_fields_float, Outcome.bind]
  · simp [parse_value, parse_vec3_fields, cast_ref_f32, Outcome.bind,
      Outcome.unwrap]
  · simp [parse_value, parse_vec3_fields, cast_ref_f32, Outcome.bind,
      Outcome.unwrap]

/-- C2: a successful `try_load` is idempotent — calling it again for the same
name returns the very same `Arc` (same identity) and leaves the registry
untouched: no new read is logged and nothing is re-parsed. -/
theorem C2_try_load_idempotent (fs : String → Option String)
    (parse : String → Outcome Prefab) (reg : PrefabRegistry) (p : String)
    (arc : ArcPrefab) (reg1 : PrefabRegistry)
    (h : PrefabRegistry.try_load fs parse reg p = (.ok arc, reg1)) :
    PrefabRegistry.try_load fs parse reg1 p = (.ok arc, reg1) := by
  unfold PrefabRegistry.try_load at h ⊢
  cases hc : alookup reg.prefab_map p with
  | some a =>
      rw [hc] at h
      simp only [Prod.mk.injEq, Outcome.ok.injEq] at h
      obtain ⟨rfl, rfl⟩ := h
      simp [hc]
  | none =>
      rw [hc] at h
      cases hf : fs ("assets/prefabs/" ++ p) with
      | none => simp only [hf] at h; simp at h
      | some text =>
          simp only [hf] at h
          cases hp : parse text with
          | ok prefab =>
              simp only [hp] at h
              simp only [Prod.mk.injEq, Outcome.ok.injEq] at h
              obtain ⟨rfl, rfl⟩ := h
              simp [alookup]
          | err e => simp only [hp] at h; simp at h
          | panic m => simp only [hp] at h; simp at h

/-- Fixed document, file system and parser used by the registry witnesses. -/
def docW : Prefab := ⟨none, []⟩

def fsW : String → Option String := fun _ => some "W"

def parseW : String → Outcome Prefab := fun _ => .ok docW

def regW0 : PrefabRegistry := ⟨[], [], 0, []⟩

def arcW : ArcPrefab := ⟨0, docW⟩

def regW1 : PrefabRegistry := ⟨[], [("w.prefab", arcW)], 1, ["w.prefab"]⟩

/-- Witness for `C2_try_load_idempotent`: after a first successful load of
w.prefab from the empty registry, a second call returns the same `Arc` and
state. -/
theorem C2_try_load_idempotent_witness :
    PrefabRegistry.try_load fsW parseW regW1 "w.prefab" = (.ok arcW, regW1) :=
  C2_try_load_idempotent fsW parseW regW0 "w.prefab" arcW regW1 rfl

/-- C6: removing a cached name deletes its cache entry, and the next
`try_load` goes back to the file system — it logs a new read and, when it
succeeds, returns a freshly allocated `Arc` (its id is the allocation
counter, different from the evicted one). -/
theorem C6_remove_then_load_rereads (fs : String → Option String)
    (parse : String → Outcome Prefab) (reg : PrefabRegistry) (p : String)
    (arc : ArcPrefab) (hcached : reg.get_prefab p = some arc)
    (hfresh : arc.id < reg.fresh) :
    (reg.remove p).get_prefab p = none
    ∧ ∀ arc' reg'',
        PrefabRegistry.try_load fs parse (reg.remove p) p = (.ok arc', reg'') →
          arc'.id = reg.fresh ∧ arc'.id ≠ arc.id
          ∧ reg''.reads = reg.reads ++ [p] := by
  have hgone : alookup (reg.remove p).prefab_map p = none := by
    have hfl := alookup_filter_ne reg.prefab_map p
    simpa [PrefabRegistry.remove] using hfl
  refine ⟨by simpa [PrefabRegistry.get_prefab] using hgone, ?_⟩
  intro arc' reg'' h
  unfold PrefabRegistry.try_load at h
  rw [hgone] at h
  cases hf : fs ("assets/prefabs/" ++ p) with
  | none => simp only [hf] at h; simp at h
  | some text =>
      simp only [hf] at h
      cases hp : parse text with
      | ok prefab =>
          simp only [hp] at h
          simp only [Prod.mk.injEq, Outcome.ok.injEq] at h
          obtain ⟨rfl, rfl⟩ := h
          refine ⟨rfl, ?_, rfl⟩
          simp only [PrefabRegistry.remove]
          omega
      | err e => simp only [hp] at h; simp at h
      | panic m => simp only [hp] at h; simp at h

/-- Registry holding a cached w.prefab, and the state after evicting and
re-loading it, for the C6 witness. -/
def regC6 : PrefabRegistry := ⟨[], [("w.prefab", arcW)], 1, []⟩

def regC6post : PrefabRegistry :=
  ⟨[], [("w.prefab", ⟨1, docW⟩)], 2, ["w.prefab"]⟩

/-- Witness for `C6_remove_then_load_rereads` at a concrete registry: the
entry disappears, the reload reads the file again and yields the fresh id 1
instead of the evicted id 0. -/
theorem C6_remove_then_load_rereads_witness :
    (regC6.remove "w.prefab").get_prefab "w.prefab" = none
    ∧ (⟨1, docW⟩ : ArcPrefab).id = regC6.fresh
    ∧ (⟨1, docW⟩ : ArcPrefab).id ≠ arcW.id
    ∧ regC6post.reads = regC6.reads ++ ["w.prefab"] := by
  have h := C6_remove_then_load_rereads fsW parseW regC6 "w.prefab" arcW rfl
    (by decide)
  exact ⟨h.1, h.2 ⟨1, docW⟩ regC6post rfl⟩

/-- C10: when `try_load` returns an error, the cache and the id counter are
untouched (the failure is not cached; in particular the name was not and is
still not in the cache), and a retry attempts the read from the external
source again. -/
theorem C10_failed_load_leaves_cache (fs : String → Option String)
    (parse : String → Outcome Prefab) (reg : PrefabRegistry) (p : String)
    (e : LoadPrefabError) (reg1 : PrefabRegistry)
    (h : PrefabRegistry.try_load fs parse reg p = (.err e, reg1)) :
    reg1.prefab_map = reg.prefab_map
    ∧ reg1.fresh = reg.fresh
    ∧ reg.get_prefab p = none
    ∧ (PrefabRegistry.try_load fs parse reg1 p).2.reads
        = reg1.reads ++ [p] := by
  unfold PrefabRegistry.try_load at h
  cases hc : alookup reg.prefab_map p with
  | some a => rw [hc] at h; simp at h
  | none =>
      rw [hc] at h
      have hmap : reg1.prefab_map = reg.prefab_map ∧ reg1.fresh = reg.fresh
          ∧ reg1.reads = reg.reads ++ [p] := by
        cases hf : fs ("assets/prefabs/" ++ p) with
        | none =>
            simp only [hf] at h
            simp only [Prod.mk.injEq] at h
            obtain ⟨-, rfl⟩ := h
            exact ⟨rfl, rfl, rfl⟩
        | some text =>
            simp only [hf] at h
            cases hp : parse text with
            | ok prefab => simp only [hp] at h; simp at h
            | err e' =>
                simp only [hp] at h
                simp only [Prod.mk.injEq] at h
                obtain ⟨-, rfl⟩ := h
                exact ⟨rfl, rfl, rfl⟩
            | panic m => simp only [hp] at h; simp at h
      obtain ⟨hm, hfr, hrd⟩ := hmap
      refine ⟨hm, hfr, by simpa [PrefabRegistry.get_prefab] using hc, ?_⟩
      unfold PrefabRegistry.try_load
      rw [hm, hc]
      cases hf2 : fs ("assets/prefabs/" ++ p) with
      | none => rfl
      | some text2 =>
          cases hp2 : parse text2 <;> simp [hp2]

/-- File system with no files, and the registry state after a failed load,
for the C10 witness. -/
def fsNone : String → Option String := fun _ => none

def regC10post : PrefabRegistry := ⟨[], [], 0, ["x.prefab"]⟩

/-- Witness for `C10_failed_load_leaves_cache`: loading x.prefab when no file
exists fails with a read error, caches nothing, and the retry reads again. -/
theorem C10_failed_load_leaves_cache_witness :
    regC10post.prefab_map = regW0.prefab_map
    ∧ regC10post.fresh = regW0.fresh
    ∧ regW0.get_prefab "x.prefab" = none
    ∧ (PrefabRegistry.try_load fsNone parseW regC10post "x.prefab").2.reads
        = regC10post.reads ++ ["x.prefab"] :=
  C10_failed_load_leaves_cache fsNone parseW regW0 "x.prefab"
    .prefabFileReadError regC10post rfl

/-- Assembly environment with the struct type T whose default instance is
x=0, y=0, plus empty world and registry, shared by the assembly claims. -/
def envT : AssemblyEnv := ⟨[("T", [("x", .int 0), ("y", .int 0)])]⟩

def worldEmpty : World := ⟨[], []⟩

def regEmpty : PrefabRegistry := ⟨[], [], 0, []⟩

def parseNone : String → Outcome Prefab := fun _ => .err .pestParseError

/-- Component stored for the entity after an assembly run, or `none` when the
run did not succeed. -/
def assembly_comp (out : Outcome (PrefabRegistry × World)) (entity : Nat)
    (ty : String) : Option CompInstance :=
  match out with
  | .ok rw => rw.2.getComp entity ty
  | _ => none

/-- C1: after the first AddComponent step for a type, the entity has the
type, so the second AddComponent step for the same type always dispatches to
the apply capability (merge the mentioned fields, keep the rest); and in the
concrete scenario, assembling T with x=5,y=5 and then T with x=9 onto a
fresh entity (T defaulting to x=0,y=0) leaves the final component x=9, y=5. -/
theorem C1_second_add_component_applies :
    (∀ (fuel : Nat) (env : AssemblyEnv) (fs : String → Option String)
        (parse : String → Outcome Prefab) (reg : PrefabRegistry) (w : World)
        (entity : Nat) (ty : String) (root1 root2 : DynValue),
      (add_component env ⟨ty, root1⟩ entity w).contains_type_id entity ty = true
      ∧ process_commands fuel env fs parse
          [.addComponent ⟨ty, root1⟩, .addComponent ⟨ty, root2⟩] reg w entity
        = .ok (reg, ReflectComponent.apply_component
            (add_component env ⟨ty, root1⟩ entity w) entity ⟨ty, root2⟩))
    ∧ assembly_comp (process_commands 0 envT fsNone parseNone
        [.addComponent ⟨"T", .dynStruct [("x", .int 5), ("y", .int 5)]⟩,
         .addComponent ⟨"T", .dynStruct [("x", .int 9)]⟩]
        regEmpty worldEmpty 0) 0 "T"
      = some [("x", .int 9), ("y", .int 5)] := by
  constructor
  · intro fuel env fs parse reg w entity ty root1 root2
    refine ⟨contains_after_add_component env ⟨ty, root1⟩ entity w, ?_⟩
    have hcontains := contains_after_add_component env ⟨ty, root1⟩ entity w
    simp only [process_commands, process_command, Outcome.bind]
    rw [add_component]
    simp [hcontains]
  · simp [assembly_comp, process_commands, process_command, add_component,
      ReflectComponent.add_component, ReflectComponent.apply_component,
      World.contains_type_id, World.getComp, World.setComp, World.logEvent,
      overlay, aset, alookup, envT, worldEmpty, Outcome.bind]

/-- Outer document of the C4 scenario: add A, splice in the nested prefab at
c.prefab, add B. -/
def docC4outer : Prefab :=
  ⟨none, [.addComponent ⟨"A", .dynStruct []⟩, .loadPrefab ⟨"c.prefab"⟩,
    .addComponent ⟨"B", .dynStruct []⟩]⟩

/-- C4 counterexample: when the nested load fails during assembly (the file
is absent), `process_command` calls `registry.load(path).unwrap()`, so the
assembly panics — the load error is not propagated as an error value. -/
theorem C4_load_error_panics_not_propagated :
    load_prefab 1 envT fsNone parseNone docC4outer regEmpty worldEmpty 0
      = .panic "called unwrap on an Err value"
    ∧ Outcome.isErr
        (load_prefab 1 envT fsNone parseNone docC4outer regEmpty worldEmpty 0)
      = false := by
  constructor <;>
    simp [load_prefab, Prefab.commands, docC4outer, process_commands,
      process_command, PrefabRegistry.load, PrefabRegistry.try_load, regEmpty,
      alookup, fsNone, Outcome.bind, Outcome.isErr]

/-- C4 as amended: a `LoadPrefab` step resolves its path via `load` at
assembly time (a load failure panics instead of being returned), reads the
nested source at that moment, assembles the nested steps onto the same
entity, and only then continues with the remaining outer steps; with outer
steps A then the nested prefab holding C then B, the components are applied
in the order A, C, B. -/
theorem C4_nested_prefab_splices_in_order (f : Nat) (env : AssemblyEnv)
    (fs : String → Option String) (parse : String → Outcome Prefab)
    (reg : PrefabRegistry) (w : World) (entity : Nat) (p text : String)
    (cA cB cC : PrefabComponent)
    (hfs : fs ("assets/prefabs/" ++ p) = some text)
    (hparse : parse text = .ok ⟨none, [.addComponent cC]⟩)
    (hmiss : reg.get_prefab p = none) :
    load_prefab (f + 1) env fs parse
        ⟨none, [.addComponent cA, .loadPrefab ⟨p⟩, .addComponent cB]⟩
        reg w entity
      = .ok
          ({ reg with
              prefab_map :=
                (p, ⟨reg.fresh, ⟨none, [.addComponent cC]⟩⟩) :: reg.prefab_map,
              fresh := reg.fresh + 1,
              reads := reg.reads ++ [p] },
            add_component env cB entity
              (add_component env cC entity (add_component env cA entity w)))
    ∧ (add_component env cB entity
          (add_component env cC entity (add_component env cA entity w))).log
        = w.log ++ [.applied cA.name cA.root, .applied cC.name cC.root,
            .applied cB.name cB.root] := by
  have hmiss' : alookup reg.prefab_map p = none := by
    simpa [PrefabRegistry.get_prefab] using hmiss
  constructor
  · simp [load_prefab, Prefab.commands, process_commands, process_command,
      Outcome.bind, PrefabRegistry.load, PrefabRegistry.try_load, hmiss', hfs,
      hparse, PrefabRegistry.get_prefab, alookup]
  · rw [add_component_log, add_component_log, add_component_log]
    simp

/-- Concrete file system and parser for the C4 witness: only c.prefab
exists, holding the single component C. -/
def fsC4 : String → Option String :=
  fun path => if path = "assets/prefabs/c.prefab" then some "C" else none

def parseC4 : String → Outcome Prefab :=
  fun text =>
    if text = "C" then .ok ⟨none, [.addComponent ⟨"C", .dynStruct []⟩]⟩
    else .err .pestParseError

/-- Witness for `C4_nested_prefab_splices_in_order` at a concrete setup:
assembling the outer document applies A, then the nested C, then B, and the
nested read happens during assembly. -/
theorem C4_nested_prefab_splices_in_order_witness :
    load_prefab 1 envT fsC4 parseC4 docC4outer regEmpty worldEmpty 0
      = .ok
          ({ regEmpty with
              prefab_map :=
                ("c.prefab",
                  ⟨regEmpty.fresh,
                    ⟨none, [.addComponent ⟨"C", .dynStruct []⟩]⟩⟩)
                  :: regEmpty.prefab_map,
              fresh := regEmpty.fresh + 1,
              reads := regEmpty.reads ++ ["c.prefab"] },
            add_component envT ⟨"B", .dynStruct []⟩ 0
              (add_component envT ⟨"C", .dynStruct []⟩ 0
                (add_component envT ⟨"A", .dynStruct []⟩ 0 worldEmpty)))
    ∧ (add_component envT ⟨"B", .dynStruct []⟩ 0
          (add_component envT ⟨"C", .dynStruct []⟩ 0
            (add_component envT ⟨"A", .dynStruct []⟩ 0 worldEmpty))).log
        = worldEmpty.log
            ++ [.applied "A" (.dynStruct []), .applied "C" (.dynStruct []),
              .applied "B" (.dynStruct [])] :=
  C4_nested_prefab_splices_in_order 0 envT fsC4 parseC4 regEmpty worldEmpty 0
    "c.prefab" "C" ⟨"A", .dynStruct []⟩ ⟨"B", .dynStruct []⟩
    ⟨"C", .dynStruct []⟩ rfl rfl rfl

end LazyPrefabs
